import Mathlib

/-!
Shallow embedding of the rust-redis server (value model, wire codec, command
parser, store, and per-connection dispatch) together with theorems checking
the natural-language specification against it.

Conventions of the embedding:
* Fallible Rust code (`Result`) becomes the `Outcome` type below, which also
  records panics (`unwrap` on `None`, `todo` placeholders, slice index
  failures) as a third, distinct constructor.
* The wall clock (`now()` in store.rs) is passed explicitly as a `Nat`
  millisecond timestamp; the several `now()` calls inside one store operation
  are modelled as the same instant.
* Rust `u128` quantities are modelled as `Nat` (the reachable values, parsed
  from `i64` text and multiplied by 1000, never approach `2^128`).
* Byte strings are modelled as Lean `String`/`List Char`; lengths count
  characters where Rust counts bytes, which coincides on the single-byte
  inputs used by every concrete theorem below.
* Dynamic error messages built with `format!` are modelled by their static
  prefix (no theorem below inspects the formatted payload).
-/

namespace RustRedis

/-- Result of a fallible Rust computation: `Ok`, `Err` (an io error carrying a
message), or a panic (`unwrap` failure, slice index failure, or a `todo`
placeholder). -/
inductive Outcome (α : Type) where
  | ok (a : α)
  | err (msg : String)
  | panicked (msg : String)

def Outcome.isOk {α : Type} : Outcome α → Bool
  | .ok _ => true
  | _ => false

def Outcome.isErr {α : Type} : Outcome α → Bool
  | .err _ => true
  | _ => false

def Outcome.isPanicked {α : Type} : Outcome α → Bool
  | .panicked _ => true
  | _ => false

/-- The wire value model from value.rs.  The `Integer` variant is referenced
by socket.rs (`Value::Integer(count)`) but absent from the `Value` enum in
value.rs as given; modelled from the spec: `Integer(signed 64-bit)`,
serialized as a `:`-prefixed line. -/
inductive Value where
  | Nil
  | SimpleString (s : String)
  | StaticSimpleString (s : String)
  | BulkString (s : String)
  | Array (vs : List Value)
  | StaticError (s : String)
  | Error (s : String)
  | Integer (i : Int)

/-- `Value::into_array` from value.rs. -/
def Value.into_array : Value → Outcome (List Value)
  | .Array vs => .ok vs
  | _ => .err "expected array"

/-- `Value::as_str` from value.rs (the source reuses the "expected array"
wording in this error message). -/
def Value.as_str : Value → Outcome String
  | .BulkString s => .ok s
  | .SimpleString s => .ok s
  | .StaticSimpleString s => .ok s
  | _ => .err "expected array"

/-- `TryInto<String> for Value` from value.rs. -/
def Value.try_into_string : Value → Outcome String
  | .BulkString s => .ok s
  | .SimpleString s => .ok s
  | .StaticSimpleString s => .ok s
  | _ => .err "expected string"

/-- The variants accepted by `as_str` / `TryInto<String>`. -/
def Value.is_text : Value → Bool
  | .BulkString _ => true
  | .SimpleString _ => true
  | .StaticSimpleString _ => true
  | _ => false

mutual

/-- The `Display` impl for `Value` from value.rs.  Note the `Array` arm
serializes each element with a trailing CRLF appended beyond the element's
own serialization, exactly as the source's loop does.  The `Integer` arm is
modelled from the spec table (absent from value.rs). -/
def Value.encode : Value → String
  | .Nil => "$-1\r\n"
  | .StaticSimpleString s => "+" ++ s ++ "\r\n"
  | .SimpleString s => "+" ++ s ++ "\r\n"
  | .BulkString s => "$" ++ toString s.length ++ "\r\n" ++ s ++ "\r\n"
  | .Array vs => "*" ++ toString vs.length ++ "\r\n" ++ Value.encodeElems vs
  | .Error m => "-" ++ m ++ "\r\n"
  | .StaticError m => "-" ++ m ++ "\r\n"
  | .Integer i => ":" ++ toString i ++ "\r\n"

/-- The loop body of the `Array` arm of `Display for Value`: each element is
written with `"{}\r\n"`, i.e. its own serialization plus an extra CRLF. -/
def Value.encodeElems : List Value → String
  | [] => ""
  | v :: rest => v.encode ++ "\r\n" ++ Value.encodeElems rest

end

/-- Rust `str::parse` for a signed integer type with the given bounds:
optional single leading sign, at least one digit, all digits, and the result
must lie within the bounds. -/
def rustParseInt (lo hi : Int) (cs : List Char) : Option Int :=
  let core : List Char → Option Int := fun ds =>
    if ds = [] then none
    else if ds.all Char.isDigit then
      some (ds.foldl (fun a c => a * 10 + ((c.toNat : Int) - 48)) 0)
    else none
  let signed : Option Int :=
    match cs with
    | '+' :: rest => core rest
    | '-' :: rest => (core rest).map (fun n => -n)
    | _ => core cs
  match signed with
  | some v => if lo ≤ v ∧ v ≤ hi then some v else none
  | none => none

def i32Min : Int := -(2 ^ 31)
def i32Max : Int := 2 ^ 31 - 1
def i64Min : Int := -(2 ^ 63)
def i64Max : Int := 2 ^ 63 - 1

/-- `SetInsertionMode` from command.rs (store.rs declares an identical local
copy named `InsertionMode`; the single shape is used throughout the
embedding). -/
inductive SetInsertionMode where
  | Normal
  | IfNotExists
  | IfExists
  deriving DecidableEq

def SetInsertionMode.is_normal : SetInsertionMode → Bool
  | .Normal => true
  | _ => false

/-- `SetExpirationMode` from command.rs (store.rs declares an identical local
copy named `ExpirationMode`). -/
inductive SetExpirationMode where
  | Normal
  | ExpirySeconds (n : Nat)
  | ExpiryMilliseconds (n : Nat)
  | ExpiryUTCSeconds (n : Nat)
  | ExpiryUTCMilliseconds (n : Nat)
  | KeepTTL
  deriving DecidableEq

def SetExpirationMode.is_normal : SetExpirationMode → Bool
  | .Normal => true
  | _ => false

/-- `SetExpirationMode::from` from command.rs (named `from` in the source; a
keyword here). -/
def SetExpirationMode.from' (string : String) (amount : Nat) : SetExpirationMode :=
  if string = "EX" ∨ string = "ex" then .ExpirySeconds amount
  else if string = "PX" ∨ string = "px" then .ExpiryMilliseconds amount
  else if string = "EXAT" ∨ string = "exat" then .ExpiryUTCSeconds amount
  else if string = "PXAT" ∨ string = "pxat" then .ExpiryUTCMilliseconds amount
  else if string = "KEEPTTL" ∨ string = "keepttl" then .KeepTTL
  else .Normal

/-- The `Command` enum from command.rs.  The `Exists` variant is dispatched by
socket.rs (`Command::Exists(values)`) but absent from the enum in command.rs
as given; modelled from the spec: `Exists(list of keys)`. -/
inductive Command where
  | Ping (message : Option Value)
  | Echo (message : Value)
  | Get (key : Value)
  | Set (key value : Value) (insertion_mode : SetInsertionMode)
      (expiration_mode : SetExpirationMode) (return_mode : Bool)
  | Exists (keys : List Value)
  | Error (message : Value)

/-- `Command::build_error` from command.rs. -/
def Command.build_error (message : String) : Command :=
  .Error (.StaticError message)

/-- `Command::parse_integer` from command.rs: parse an `i64` or produce the
not-an-integer error command. -/
def Command.parse_integer (value : String) : Except Command Int :=
  match rustParseInt i64Min i64Max value.toList with
  | some num => .ok num
  | none => .error (Command.build_error "value is not an integer or out of range")

/-- The flag-scanning loop of `Command::parse_set_command` from command.rs:
`while let Some(Value::BulkString(value)) = values.next()` with the guarded
match arms.  A non-bulk-string argument ends the loop (returning the `Set`
built so far), exactly as the `while let` pattern does. -/
def Command.scan_set_flags (key value : Value) :
    SetInsertionMode → SetExpirationMode → Bool → List Value → Command
  | im, em, rm, [] => .Set key value im em rm
  | im, em, rm, Value.BulkString s :: rest =>
    if (s = "XX" ∨ s = "xx") ∧ im.is_normal then
      Command.scan_set_flags key value .IfExists em rm rest
    else if (s = "NX" ∨ s = "nx") ∧ im.is_normal then
      Command.scan_set_flags key value .IfNotExists em rm rest
    else if (s ∈ ["EX", "PX", "EXAT", "PXAT", "ex", "px", "exat", "pxat"]) ∧ em.is_normal then
      match rest with
      | Value.BulkString amount :: rest2 =>
        match Command.parse_integer amount with
        | .ok num =>
          if num > 0 then
            Command.scan_set_flags key value im (SetExpirationMode.from' s num.toNat) rm rest2
          else .Error (.StaticError "invalid expire time in 'set' command")
        | .error cmd => cmd
      | _ => .Error (.StaticError "syntax error")
    else if s = "KEEPTTL" ∧ em.is_normal then
      Command.scan_set_flags key value im .KeepTTL rm rest
    else if s = "GET" then
      Command.scan_set_flags key value im em true rest
    else .Error (.StaticError "syntax error")
  | im, em, rm, _ :: _ => .Set key value im em rm

/-- `Command::parse_set_command` from command.rs: arity floor of two (key and
value), then the flag scan. -/
def Command.parse_set_command (values : List Value) : Option Command :=
  if values.length < 2 then none
  else
    match values with
    | key :: value :: flags =>
      some (Command.scan_set_flags key value .Normal .Normal false flags)
    | _ => none

/-- Modelled from the spec: the EXISTS parser arm, which is missing from
command.rs as given (socket.rs dispatches `Command::Exists`).  Per the spec,
EXISTS takes 0..N arguments, collected as the key list. -/
def Command.parse_exists_command (values : List Value) : Option Command :=
  some (.Exists values)

/-- The name-dispatch match from `TryFrom<Value> for Command` (the value
bound to `cmd` in the source): `None` means the named command failed its own
arity check. -/
def Command.parse_named (s : String) (args : List Value) : Option Command :=
  if s = "PING" ∨ s = "ping" then
    match args with
    | [] => some (.Ping none)
    | [message] => some (.Ping (some message))
    | _ => none
  else if s = "ECHO" ∨ s = "echo" then
    match args with
    | [message] => some (.Echo message)
    | _ => none
  else if s = "GET" ∨ s = "get" then
    match args with
    | [key] => some (.Get key)
    | _ => none
  else if s = "SET" ∨ s = "set" then Command.parse_set_command args
  else if s = "EXISTS" ∨ s = "exists" then Command.parse_exists_command args
  else some (.Error (.Error ("unknown command '" ++ s ++ "'")))

/-- `TryFrom<Value> for Command` from command.rs.  The first element is taken
with `values.next().unwrap()`, which panics on an empty array.  The EXISTS
arm is modelled from the spec (see `Command.parse_exists_command`), matched
with the same upper-or-lower spelling convention every other arm uses. -/
def Command.try_from (value : Value) : Outcome Command :=
  match value.into_array with
  | .err m => .err m
  | .panicked m => .panicked m
  | .ok [] => .panicked "called Option.unwrap on a None value"
  | .ok (command :: args) =>
    match command.as_str with
    | .err m => .err m
    | .panicked m => .panicked m
    | .ok s =>
      match Command.parse_named s args with
      | some result => .ok result
      | none => .ok (.Error (.Error ("wrong number of arguments for '" ++ s ++ "' command")))

/-- `Entry` from store.rs: a stored value with an optional absolute expiry in
milliseconds. -/
structure Entry where
  value : Value
  expires_at : Option Nat

/-- `Entry::from` from store.rs (named `from` in the source; a keyword here). -/
def Entry.from' (value : Value) : Entry :=
  { value := value, expires_at := none }

/-- `Entry::is_valid` from store.rs, with the `now()` call passed explicitly. -/
def Entry.is_valid (e : Entry) (now : Nat) : Bool :=
  match e.expires_at with
  | some time => decide (time > now)
  | none => true

/-- `Entry::get` from store.rs. -/
def Entry.get (e : Entry) (now : Nat) : Option Value :=
  if e.is_valid now then some e.value else none

/-- `Entry::consume` from store.rs. -/
def Entry.consume (e : Entry) (now : Nat) : Option Value :=
  if e.is_valid now then some e.value else none

/-- `Store` from store.rs: the `HashMap<String, Entry>` modelled as a map
function (keys unique, no ordering semantics). -/
structure Store where
  map : String → Option Entry

/-- `Store::new` from store.rs. -/
def Store.new : Store :=
  { map := fun _ => none }

/-- `Store::get` from store.rs. -/
def Store.get (st : Store) (key : String) (now : Nat) : Option Value :=
  match st.map key with
  | some entry => entry.get now
  | none => none

/-- `Store::has_entry` from store.rs. -/
def Store.has_entry (st : Store) (key : String) (now : Nat) : Bool :=
  (st.get key now).isSome

/-- The `expires_at` computed for the new entry by `Store::insert` (the
match on `expiration_mode` in the source). -/
def Store.new_expires_at (st : Store) (key : String)
    (expiration_mode : SetExpirationMode) (now : Nat) : Option Nat :=
  match expiration_mode with
  | .Normal => none
  | .ExpiryMilliseconds expiry => some (expiry + now)
  | .ExpirySeconds expiry => some (expiry * 1000 + now)
  | .ExpiryUTCMilliseconds expiry => some expiry
  | .ExpiryUTCSeconds expiry => some (expiry * 1000)
  | .KeepTTL =>
    match st.map key with
    | some { expires_at := some previous_expiry, .. } => some previous_expiry
    | _ => none

/-- The `entry_exists` local of `Store::insert`: liveness of the current
entry. -/
def Store.entry_exists_at (st : Store) (key : String) (now : Nat) : Bool :=
  match st.map key with
  | some entry => entry.is_valid now
  | none => false

/-- `Store::insert` from store.rs, returning the `Result<Option<Value>, ()>`
(`Err(())` is the condition-not-met outcome) together with the store after
the operation.  `HashMap::insert` returning the previous binding is modelled
by reading the map at `key` before updating it. -/
def Store.insert (st : Store) (key : String) (value : Value)
    (insertion_mode : SetInsertionMode) (expiration_mode : SetExpirationMode)
    (now : Nat) : Except Unit (Option Value) × Store :=
  let new_entry : Entry :=
    { value := value, expires_at := st.new_expires_at key expiration_mode now }
  let proceed : Bool :=
    match insertion_mode with
    | .Normal => true
    | .IfNotExists => !st.entry_exists_at key now
    | .IfExists => st.entry_exists_at key now
  if proceed then
    let st' : Store := { map := fun k => if k = key then some new_entry else st.map k }
    let result : Option Value :=
      match st.map key with
      | some entry => entry.consume now
      | none => none
    (.ok result, st')
  else (.error (), st)

namespace Socket

/-- One iteration of `BufReader::read_line`: the span of the stream up to and
including the first newline (or the whole remaining stream when no newline
is present); zero remaining bytes is the connection-closed error. -/
def splitNL : List Char → List Char × List Char
  | [] => ([], [])
  | c :: rest =>
    if c = '\n' then ([c], rest)
    else
      let p := splitNL rest
      (c :: p.1, p.2)

/-- `Socket::read_line` from socket.rs over the modelled stream. -/
def read_line (input : List Char) : Outcome (List Char × List Char) :=
  if input.isEmpty then .err "socket connection was closed"
  else .ok (splitNL input)

/-- `Socket::parse_len` from socket.rs: parse `buffer[1..len-2]` as an `i32`.
The slice panics when the line has at most two characters (`len - 2`
underflows, or the range `1..0` is invalid). -/
def parse_len (buffer : List Char) : Outcome Int :=
  if buffer.length ≤ 2 then .panicked "slice index out of range"
  else
    match rustParseInt i32Min i32Max ((buffer.drop 1).take (buffer.length - 3)) with
    | some n => .ok n
    | none => .err "failed to parse length of value"

/-- `Socket::parse_simple_string` from socket.rs: the line between the `+` and
the terminator, with the same slice-panic edge as `parse_len`. -/
def parse_simple_string (buffer : List Char) (rest : List Char) :
    Outcome (Value × List Char) :=
  if buffer.length ≤ 2 then .panicked "slice index out of range"
  else .ok (.SimpleString (String.mk ((buffer.drop 1).take (buffer.length - 3))), rest)

/-- `Socket::parse_bulk_string` from socket.rs.  The declared-versus-actual
length comparison `self.buffer.len() - 2 != string_len as usize` is `usize`
arithmetic; the wrapping subtraction is modelled explicitly (it only differs
from plain subtraction on lines shorter than two characters). -/
def parse_bulk_string (buffer : List Char) (input : List Char) :
    Outcome (Value × List Char) :=
  match parse_len buffer with
  | .err m => .err m
  | .panicked m => .panicked m
  | .ok string_len =>
    if string_len = -1 then .ok (.Nil, input)
    else if string_len < 0 then .err "bulk string cannot have negative length"
    else
      match read_line input with
      | .err m => .err m
      | .panicked m => .panicked m
      | .ok (buf, rest) =>
        if (buf.length + (2 ^ 64 - 2)) % 2 ^ 64 ≠ string_len.toNat then
          .err "bulk string length mismatch"
        else if string_len = 0 then .ok (.BulkString "", rest)
        else .ok (.BulkString (String.mk (buf.take string_len.toNat)), rest)

mutual

/-- `Socket::parse_value` from socket.rs: read one line and dispatch on its
first character.  The catch-all arm is the source's `todo!(...)`, i.e. a
panic.  `fuel` bounds the recursion so the definition is total; every call
strictly decreases it, and `decode` supplies enough for any input it is
applied to in this development. -/
def parse_value : Nat → List Char → Outcome (Value × List Char)
  | 0, _ => .err "recursion fuel exhausted"
  | fuel + 1, input =>
    match read_line input with
    | .err m => .err m
    | .panicked m => .panicked m
    | .ok (buffer, rest) =>
      match buffer with
      | [] => .panicked "slice index out of range"
      | c :: _ =>
        if c = '*' then parse_array fuel buffer rest
        else if c = '$' then parse_bulk_string buffer rest
        else if c = '+' then parse_simple_string buffer rest
        else .panicked "not yet implemented"

/-- `Socket::parse_array` from socket.rs: parse the length, handle `-1` and
negative lengths, then decode exactly that many sub-values. -/
def parse_array : Nat → List Char → List Char → Outcome (Value × List Char)
  | 0, _, _ => .err "recursion fuel exhausted"
  | fuel + 1, buffer, input =>
    match parse_len buffer with
    | .err m => .err m
    | .panicked m => .panicked m
    | .ok array_len =>
      if array_len = -1 then .ok (.Nil, input)
      else if array_len < 0 then .err "array cannot have negative length"
      else
        match parse_array_elems fuel array_len.toNat input with
        | .ok (vs, rest) => .ok (.Array vs, rest)
        | .err m => .err m
        | .panicked m => .panicked m

/-- The element loop of `Socket::parse_array`. -/
def parse_array_elems : Nat → Nat → List Char → Outcome (List Value × List Char)
  | _, 0, input => .ok ([], input)
  | 0, _ + 1, _ => .err "recursion fuel exhausted"
  | fuel + 1, n + 1, input =>
    match parse_value fuel input with
    | .ok (v, rest) =>
      match parse_array_elems fuel n rest with
      | .ok (vs, r) => .ok (v :: vs, r)
      | .err m => .err m
      | .panicked m => .panicked m
    | .err m => .err m
    | .panicked m => .panicked m

end

/-- Decode one `Value` from the head of a character stream (the composition
used by `Socket::parse_command`).  The fuel is an over-approximation of the
recursion the stream can drive; the concrete theorems below evaluate it. -/
def decode (s : String) : Outcome (Value × List Char) :=
  parse_value (4 * s.toList.length + 16) s.toList

/-- `Socket::fetch` from socket.rs: the reply value written for `GET`. -/
def fetch (key : Value) (st : Store) (now : Nat) : Outcome Value :=
  match key.as_str with
  | .err m => .err m
  | .panicked m => .panicked m
  | .ok k =>
    .ok (match st.get k now with
      | some v => v
      | none => .Nil)

/-- `Socket::set` from socket.rs: convert the key with `TryInto<String>`
(propagating its failure before the store is touched), run the insert, and
choose the reply value exactly as the source's match does.  Returns the
reply outcome together with the store after the call. -/
def set (key value : Value) (insertion_mode : SetInsertionMode)
    (expiration_mode : SetExpirationMode) (return_mode : Bool)
    (st : Store) (now : Nat) : Outcome Value × Store :=
  match key.try_into_string with
  | .err m => (.err m, st)
  | .panicked m => (.panicked m, st)
  | .ok k =>
    let r := st.insert k value insertion_mode expiration_mode now
    let old_value : Value :=
      match r.1, return_mode with
      | .ok none, true => .Nil
      | .ok (some v), true => v
      | .ok (some _), false => .StaticSimpleString "OK"
      | .ok none, false => .StaticSimpleString "OK"
      | .error _, _ => .Nil
    (.ok old_value, r.2)

/-- The counting loop of `Socket::exists` from socket.rs: each key is
converted with `as_str` (propagating its failure) and `has_entry` is added
to the running `i64` count. -/
def exists_loop : List Value → Store → Nat → Int → Outcome Int
  | [], _, _, count => .ok count
  | v :: rest, st, now, count =>
    match v.as_str with
    | .err m => .err m
    | .panicked m => .panicked m
    | .ok k => exists_loop rest st now (count + if st.has_entry k now then 1 else 0)

/-- `Socket::exists` from socket.rs: the reply value written for `EXISTS`. -/
def exists' (values : List Value) (st : Store) (now : Nat) : Outcome Value :=
  match exists_loop values st now 0 with
  | .err m => .err m
  | .panicked m => .panicked m
  | .ok count => .ok (.Integer count)

/-- The dispatch match of `Socket::run` from socket.rs: map one command to
the reply value written to the output buffer, together with the store after
the command. -/
def dispatch (cmd : Command) (st : Store) (now : Nat) : Outcome Value × Store :=
  match cmd with
  | .Echo v => (.ok v, st)
  | .Ping (some v) => (.ok v, st)
  | .Error v => (.ok v, st)
  | .Ping none => (.ok (.StaticSimpleString "PONG"), st)
  | .Get key => (fetch key st now, st)
  | .Set key value im em rm => set key value im em rm st now
  | .Exists values => (exists' values st now, st)

end Socket

/-- The variant matched by the `while let Some(Value::BulkString(..))` flag
loop. -/
def Value.is_bulk : Value → Bool
  | .BulkString _ => true
  | _ => false

/-- Whether an insert outcome is `Replaced` (`Ok`) as opposed to
`ConditionNotMet` (`Err(())`). -/
def proceeded : Except Unit (Option Value) → Bool
  | .ok _ => true
  | .error _ => false

/-- A store holding exactly one entry, used by the concrete instances below. -/
def singletonStore (k : String) (e : Entry) : Store :=
  { map := fun k' => if k' = k then some e else none }

lemma entry_exists_at_eq (st : Store) (key : String) (now : Nat) :
    st.entry_exists_at key now = st.has_entry key now := by
  unfold Store.entry_exists_at Store.has_entry Store.get
  cases h : st.map key with
  | none => simp
  | some e => cases hv : e.is_valid now <;> simp [Entry.get, hv]

lemma insert_snd_of_error (st : Store) (key : String) (value : Value)
    (im : SetInsertionMode) (em : SetExpirationMode) (now : Nat)
    (h : (st.insert key value im em now).1 = .error ()) :
    (st.insert key value im em now).2 = st := by
  unfold Store.insert at h ⊢
  cases im
  · simp at h
  · cases hb : st.entry_exists_at key now <;> simp [hb] at h ⊢
  · cases hb : st.entry_exists_at key now <;> simp [hb] at h ⊢

lemma consume_match_some (st : Store) (key : String) (now : Nat) (p : Value)
    (h : (match st.map key with
          | some entry => entry.consume now
          | none => none) = some p) :
    ∃ e, st.map key = some e ∧ e.is_valid now = true ∧ e.value = p := by
  cases hc : st.map key with
  | none => simp [hc] at h
  | some e =>
    rw [hc] at h
    unfold Entry.consume at h
    by_cases hv : e.is_valid now = true
    · simp only [hv, if_true] at h
      exact ⟨e, rfl, hv, (Option.some_inj.mp h)⟩
    · simp only [hv, if_false] at h
      simp [hv] at h

lemma insert_fst_ok_some (st : Store) (key : String) (value : Value)
    (im : SetInsertionMode) (em : SetExpirationMode) (now : Nat) (p : Value)
    (h : (st.insert key value im em now).1 = .ok (some p)) :
    ∃ e, st.map key = some e ∧ e.is_valid now = true ∧ e.value = p := by
  unfold Store.insert at h
  cases im
  · simp at h
    exact consume_match_some st key now p h
  · cases hb : st.entry_exists_at key now <;> simp [hb] at h
    exact consume_match_some st key now p h
  · cases hb : st.entry_exists_at key now <;> simp [hb] at h
    exact consume_match_some st key now p h

lemma exists_loop_count (ks : List String) (st : Store) (now : Nat) (c : Int) :
    Socket.exists_loop (ks.map Value.BulkString) st now c =
      .ok (c + (ks.countP (fun k => st.has_entry k now) : Int)) := by
  induction ks generalizing c with
  | nil => simp [Socket.exists_loop]
  | cons k rest ih =>
    simp only [List.map_cons, Socket.exists_loop, Value.as_str, ih, List.countP_cons]
    congr 1
    push_cast
    split_ifs <;> omega

lemma parse_integer_error_shape (v : String) (cmd : Command)
    (h : Command.parse_integer v = .error cmd) :
    cmd = .Error (.StaticError "value is not an integer or out of range") := by
  unfold Command.parse_integer at h
  rcases hcase : rustParseInt i64Min i64Max v.toList with _ | n
  · simp only [hcase] at h
    injection h with h'
    exact h'.symm
  · simp only [hcase] at h
    exact Except.noConfusion h

/-- C1: serializing a well-formed `Value` tree and decoding the bytes does
not reproduce the tree: the `Display` impl writes an extra CRLF after every
array element, so already for the two-element array `["a", "b"]` the decoder
reads a blank line where the second element's type byte should be and hits
the `todo` panic; an `Error` value serializes with a leading `-`, which the
decoder also sends to the `todo` panic.  Decode is therefore not the inverse
of encode on arrays of two or more elements nor on error values. -/
theorem c1_roundtrip_panics :
    Value.encode (.Array [.BulkString "a", .BulkString "b"]) =
      "*2\r\n$1\r\na\r\n\r\n$1\r\nb\r\n\r\n" ∧
    (Socket.decode (Value.encode (.Array [.BulkString "a", .BulkString "b"]))).isPanicked
      = true ∧
    (Socket.decode (Value.encode (.Error "oops"))).isPanicked = true :=
  ⟨rfl, rfl, rfl⟩

/-- C9: a line whose leading byte is none of `*`, `$`, `+` does not produce a
decode error: the decoder's catch-all arm is `todo!(..)`, a panic (shown here
on the line `:1\r\n`). -/
theorem c9_unknown_byte_panics :
    (Socket.decode ":1\r\n").isPanicked = true ∧
    (Socket.decode ":1\r\n").isErr = false :=
  ⟨rfl, rfl⟩

/-- C2 counterexample: the parser is not total on the empty array — the
source takes the command name with `values.next().unwrap()`, which panics
when the decoded array has no elements, instead of failing with a
decode-tier error. -/
theorem c2_counterexample_empty_array :
    (Command.try_from (Value.Array [])).isPanicked = true :=
  rfl

/-- C2 (amended): `parse(Value) -> Command` returns a `Command` for every
non-empty array whose first element is text, fails with a decode-tier error
for a non-array input or a non-empty array whose first element is not text,
and panics (rather than erroring) on the empty array. -/
theorem c2_parse_total_amended :
    (∀ (h : Value) (t : List Value), h.is_text = true →
      ∃ c, Command.try_from (.Array (h :: t)) = .ok c) ∧
    (∀ (h : Value) (t : List Value), h.is_text = false →
      (Command.try_from (.Array (h :: t))).isErr = true) ∧
    (∀ v : Value, (∀ vs, v ≠ .Array vs) → (Command.try_from v).isErr = true) ∧
    (Command.try_from (.Array [])).isPanicked = true := by
  refine ⟨?_, ?_, ?_, rfl⟩
  · intro h t htext
    cases h <;> simp [Value.is_text] at htext <;>
      · simp only [Command.try_from, Value.into_array, Value.as_str]
        cases hc : Command.parse_named _ t <;> simp [hc]
  · intro h t htext
    cases h <;> simp [Value.is_text] at htext <;>
      simp [Command.try_from, Value.into_array, Value.as_str, Outcome.isErr]
  · intro v hv
    cases v <;>
      first
      | exact absurd rfl (hv _)
      | simp [Command.try_from, Value.into_array, Outcome.isErr]

/-- C2 witness: the amended totality theorem applied at concrete inputs. -/
theorem c2_witness :
    (∃ c, Command.try_from (.Array [.BulkString "PING"]) = .ok c) ∧
    (Command.try_from (.Array [Value.Nil])).isErr = true ∧
    (Command.try_from Value.Nil).isErr = true :=
  ⟨c2_parse_total_amended.1 (.BulkString "PING") [] rfl,
   c2_parse_total_amended.2.1 Value.Nil [] rfl,
   c2_parse_total_amended.2.2.1 Value.Nil (fun _ h => Value.noConfusion h)⟩

/-- C5 counterexample: with `KeepTTL`, an insert over an entry that has
already expired (expiry 5, now 10, so `is_valid` is false) still copies the
old `expires_at` into the new entry — the claim requires `none` there. -/
theorem c5_counterexample_keepttl_expired :
    Entry.is_valid { value := .BulkString "old", expires_at := some 5 } 10 = false ∧
    ((singletonStore "k" { value := .BulkString "old", expires_at := some 5 }).insert
        "k" (.BulkString "new") .Normal .KeepTTL 10).2.map "k" =
      some { value := .BulkString "new", expires_at := some 5 } :=
  ⟨rfl, rfl⟩

/-- C5 (amended): with `KeepTTL` the new entry's `expires_at` equals the
previous entry's `expires_at` whenever a previous entry is physically
present and has one — live or already expired — and is `none` only when the
key is absent or the previous entry has no expiry.  (The source copies the
old expiry without the liveness check the claim describes.) -/
theorem c5_keepttl_amended (key : String) (value : Value) (st : Store) (now : Nat) :
    ((st.insert key value .Normal .KeepTTL now).2).map key =
      some { value := value,
             expires_at :=
               match st.map key with
               | some e => e.expires_at
               | none => none } := by
  unfold Store.insert Store.new_expires_at
  cases hc : st.map key with
  | none => simp [hc]
  | some e =>
    obtain ⟨ev, eexp⟩ := e
    cases eexp <;> simp [hc]

/-- C6: `Normal` inserts always proceed, `IfNotExists` proceeds exactly when
no live entry exists, `IfExists` exactly when one does, and whenever the
condition fails the result is `ConditionNotMet` (`Err(())`) and the map is
unchanged. -/
theorem c6_insertion_modes (key : String) (value : Value)
    (em : SetExpirationMode) (st : Store) (now : Nat) :
    (proceeded (st.insert key value .Normal em now).1 = true) ∧
    (proceeded (st.insert key value .IfNotExists em now).1 = !st.has_entry key now) ∧
    (proceeded (st.insert key value .IfExists em now).1 = st.has_entry key now) ∧
    (∀ im : SetInsertionMode, (st.insert key value im em now).1 = .error () →
      (st.insert key value im em now).2 = st) := by
  refine ⟨?_, ?_, ?_, fun im h => insert_snd_of_error st key value im em now h⟩
  · simp [Store.insert, proceeded]
  · rw [← entry_exists_at_eq]
    cases hb : st.entry_exists_at key now <;> simp [Store.insert, proceeded, hb]
  · rw [← entry_exists_at_eq]
    cases hb : st.entry_exists_at key now <;> simp [Store.insert, proceeded, hb]

/-- C6 witness: the insertion-mode theorem applied at a concrete store where
the `IfExists` condition fails. -/
theorem c6_witness :
    (Store.insert Store.new "k" (.BulkString "v") .IfExists .Normal 0).2 = Store.new :=
  (c6_insertion_modes "k" (.BulkString "v") .Normal Store.new 0).2.2.2 .IfExists rfl

/-- C7: the reply for a dispatched SET is `Nil` on `ConditionNotMet`; on
`Replaced` it is the previous value (or `Nil` when there was none) when the
GET flag was given and the simple string "OK" otherwise; and a previous
value is only ever reported when the prior entry was live at insert time. -/
theorem c7_set_reply (k : String) (v : Value) (im : SetInsertionMode)
    (em : SetExpirationMode) (rm : Bool) (st : Store) (now : Nat) :
    ((st.insert k v im em now).1 = .error () →
      Socket.set (.BulkString k) v im em rm st now = (.ok .Nil, st)) ∧
    ((st.insert k v im em now).1 = .ok none →
      Socket.set (.BulkString k) v im em rm st now =
        (.ok (if rm then .Nil else .StaticSimpleString "OK"),
          (st.insert k v im em now).2)) ∧
    (∀ p, (st.insert k v im em now).1 = .ok (some p) →
      Socket.set (.BulkString k) v im em rm st now =
        (.ok (if rm then p else .StaticSimpleString "OK"),
          (st.insert k v im em now).2)) ∧
    (∀ p, (st.insert k v im em now).1 = .ok (some p) →
      ∃ e, st.map k = some e ∧ e.is_valid now = true ∧ e.value = p) := by
  refine ⟨?_, ?_, ?_, fun p h => insert_fst_ok_some st k v im em now p h⟩
  · intro h
    have h2 := insert_snd_of_error st k v im em now h
    simp [Socket.set, Value.try_into_string, h, h2]
  · intro h
    simp [Socket.set, Value.try_into_string, h]
    cases rm <;> simp
  · intro p h
    simp [Socket.set, Value.try_into_string, h]
    cases rm <;> simp

/-- C7 witness: the SET-reply theorem applied at a concrete store whose
prior entry is live, with the GET flag set. -/
theorem c7_witness :
    Socket.set (.BulkString "k") (.BulkString "new") .Normal .Normal true
        (singletonStore "k" { value := .BulkString "old", expires_at := none }) 0 =
      (.ok (.BulkString "old"),
        ((singletonStore "k" { value := .BulkString "old", expires_at := none }).insert
          "k" (.BulkString "new") .Normal .Normal 0).2) ∧
    (∃ e, (singletonStore "k" { value := .BulkString "old", expires_at := none }).map "k" =
      some e ∧ e.is_valid 0 = true ∧ e.value = .BulkString "old") :=
  ⟨(c7_set_reply "k" (.BulkString "new") .Normal .Normal true
      (singletonStore "k" { value := .BulkString "old", expires_at := none }) 0).2.2.1
      (.BulkString "old") rfl,
   (c7_set_reply "k" (.BulkString "new") .Normal .Normal true
      (singletonStore "k" { value := .BulkString "old", expires_at := none }) 0).2.2.2
      (.BulkString "old") rfl⟩

/-- C10: a SET whose key is a non-string value makes the dispatch fail with
a connection-fatal error (the `TryInto<String>` failure propagates before
the store is touched): no reply value is produced and the store is returned
unchanged; in particular an array key always fails this way. -/
theorem c10_nonstring_key :
    (∀ (key value : Value) (im : SetInsertionMode) (em : SetExpirationMode)
        (rm : Bool) (st : Store) (now : Nat) (m : String),
      key.try_into_string = .err m →
      Socket.set key value im em rm st now = (.err m, st) ∧
      Socket.dispatch (.Set key value im em rm) st now = (.err m, st)) ∧
    (∀ vs : List Value, (Value.Array vs).try_into_string = .err "expected string") := by
  refine ⟨?_, fun vs => rfl⟩
  intro key value im em rm st now m h
  constructor <;> simp [Socket.dispatch, Socket.set, h]

/-- C10 witness: the non-string-key theorem applied to a nested-array key. -/
theorem c10_witness :
    Socket.set (.Array [.BulkString "x"]) (.BulkString "v") .Normal .Normal false
        Store.new 0 = (.err "expected string", Store.new) :=
  (c10_nonstring_key.1 (.Array [.BulkString "x"]) (.BulkString "v") .Normal .Normal
    false Store.new 0 "expected string" rfl).1

/-- C3: EXISTS parses with zero or more key arguments (spec-modelled arm, see
`Command.parse_exists_command`), and dispatch replies with an `Integer`
counting, occurrence by occurrence, the listed keys for which `has_entry`
holds. -/
theorem c3_exists_parse_and_count (ks : List String) (st : Store) (now : Nat) :
    Command.try_from (.Array (.BulkString "EXISTS" :: ks.map .BulkString)) =
      .ok (.Exists (ks.map .BulkString)) ∧
    Socket.exists' (ks.map .BulkString) st now =
      .ok (.Integer (ks.countP (fun k => st.has_entry k now))) ∧
    Socket.dispatch (.Exists (ks.map .BulkString)) st now =
      ((.ok (.Integer (ks.countP (fun k => st.has_entry k now)))), st) := by
  have hloop := exists_loop_count ks st now 0
  refine ⟨?_, ?_, ?_⟩
  · simp [Command.try_from, Value.into_array, Value.as_str, Command.parse_named,
      Command.parse_exists_command]
  · simp [Socket.exists', hloop]
  · simp [Socket.dispatch, Socket.exists', hloop]

lemma insertion_is_normal_iff (im : SetInsertionMode) :
    im.is_normal = true ↔ im = .Normal := by
  cases im <;> simp [SetInsertionMode.is_normal]

lemma expiration_is_normal_iff (em : SetExpirationMode) :
    em.is_normal = true ↔ em = .Normal := by
  cases em <;> simp [SetExpirationMode.is_normal]

lemma scan_set_flags_set_inv :
    ∀ (n : Nat) (flags : List Value), flags.length ≤ n →
      ∀ (key value : Value) (im : SetInsertionMode) (em : SetExpirationMode) (rm : Bool)
        (k' v' : Value) (im' : SetInsertionMode) (em' : SetExpirationMode) (rm' : Bool),
      Command.scan_set_flags key value im em rm flags = .Set k' v' im' em' rm' →
      k' = key ∧ v' = value ∧ (im ≠ .Normal → im' = im) ∧ (em ≠ .Normal → em' = em) := by
  intro n
  induction n with
  | zero =>
    intro flags hlen key value im em rm k' v' im' em' rm' h
    have hnil : flags = [] := List.length_eq_zero.mp (Nat.le_zero.mp hlen)
    subst hnil
    injection h with h1 h2 h3 h4 h5
    exact ⟨h1.symm, h2.symm, fun _ => h3.symm, fun _ => h4.symm⟩
  | succ n ih =>
    intro flags hlen key value im em rm k' v' im' em' rm' h
    cases flags with
    | nil =>
      injection h with h1 h2 h3 h4 h5
      exact ⟨h1.symm, h2.symm, fun _ => h3.symm, fun _ => h4.symm⟩
    | cons v rest =>
      cases v
      case BulkString s =>
        have hrest : rest.length ≤ n := by simp at hlen; omega
        rw [Command.scan_set_flags.eq_def] at h
        dsimp only at h
        split_ifs at h with h1 h2 h3 h4 h5
        · obtain ⟨e1, e2, e3, e4⟩ := ih rest hrest key value .IfExists em rm k' v' im' em' rm' h
          exact ⟨e1, e2,
            fun him => absurd (insertion_is_normal_iff im |>.mp h1.2) him, e4⟩
        · obtain ⟨e1, e2, e3, e4⟩ := ih rest hrest key value .IfNotExists em rm k' v' im' em' rm' h
          exact ⟨e1, e2,
            fun him => absurd (insertion_is_normal_iff im |>.mp h2.2) him, e4⟩
        · rcases rest with _ | ⟨r0, rest2⟩
          · simp at h
          · rcases r0 with _ | s0 | s0 | amount | vs0 | s0 | s0 | i0
            · simp at h
            · simp at h
            · simp at h
            · rcases hpi : Command.parse_integer amount with cmd | num
              · rw [parse_integer_error_shape amount cmd hpi] at hpi
                simp only [hpi] at h
                simp at h
              · simp only [hpi] at h
                split_ifs at h with hnum
                · have hrest2 : rest2.length ≤ n := by simp at hlen; omega
                  obtain ⟨e1, e2, e3, e4⟩ := ih rest2 hrest2 key value im
                    (SetExpirationMode.from' s num.toNat) rm k' v' im' em' rm' h
                  exact ⟨e1, e2, e3,
                    fun hem => absurd (expiration_is_normal_iff em |>.mp h3.2) hem⟩
            · simp at h
            · simp at h
            · simp at h
            · simp at h
        · obtain ⟨e1, e2, e3, e4⟩ := ih rest hrest key value im .KeepTTL rm k' v' im' em' rm' h
          exact ⟨e1, e2, e3,
            fun hem => absurd (expiration_is_normal_iff em |>.mp h4.2) hem⟩
        · exact ih rest hrest key value im em true k' v' im' em' rm' h
      all_goals
        injection h with h1 h2 h3 h4 h5
        exact ⟨h1.symm, h2.symm, fun _ => h3.symm, fun _ => h4.symm⟩

/-- C8 counterexample: a flag argument that is not a bulk string silently
terminates the scan instead of producing the syntax error the claim
requires for an unrecognized flag token — here the unrecognized token is the
simple string "FOO", and the SET is accepted (even ignoring the bulk string
"QQQ" after it). -/
theorem c8_counterexample_nonbulk_flag :
    Command.try_from (.Array [.BulkString "SET", .BulkString "k", .BulkString "v",
      .SimpleString "FOO", .BulkString "QQQ"]) =
      .ok (.Set (.BulkString "k") (.BulkString "v") .Normal .Normal false) :=
  rfl

/-- C8 (amended): over bulk-string flag tokens the scan decides each of the
two option categories at most once and answers any unrecognized token, or
any token for an already-decided category, with the "syntax error" reply,
ignoring the rest of the scan; a flag argument that is not a bulk string
instead ends the scan silently and the SET is accepted with the options
decided so far, ignoring all later arguments. -/
theorem c8_flag_scan_amended :
    (∀ (flags : List Value) (key value : Value) (im : SetInsertionMode)
        (em : SetExpirationMode) (rm : Bool) (k' v' : Value) (im' : SetInsertionMode)
        (em' : SetExpirationMode) (rm' : Bool),
      Command.scan_set_flags key value im em rm flags = .Set k' v' im' em' rm' →
      k' = key ∧ v' = value ∧ (im ≠ .Normal → im' = im) ∧ (em ≠ .Normal → em' = em)) ∧
    (∀ (key value : Value) (im : SetInsertionMode) (em : SetExpirationMode) (rm : Bool)
        (s : String) (rest : List Value),
      s ∈ (["XX", "xx", "NX", "nx"] : List String) → im ≠ .Normal →
      Command.scan_set_flags key value im em rm (.BulkString s :: rest) =
        .Error (.StaticError "syntax error")) ∧
    (∀ (key value : Value) (im : SetInsertionMode) (em : SetExpirationMode) (rm : Bool)
        (s : String) (rest : List Value),
      s ∈ (["EX", "PX", "EXAT", "PXAT", "ex", "px", "exat", "pxat", "KEEPTTL"] :
        List String) → em ≠ .Normal →
      Command.scan_set_flags key value im em rm (.BulkString s :: rest) =
        .Error (.StaticError "syntax error")) ∧
    (∀ (key value : Value) (im : SetInsertionMode) (em : SetExpirationMode) (rm : Bool)
        (s : String) (rest : List Value),
      s ∉ (["XX", "xx", "NX", "nx", "EX", "PX", "EXAT", "PXAT", "ex", "px", "exat",
        "pxat", "KEEPTTL", "GET"] : List String) →
      Command.scan_set_flags key value im em rm (.BulkString s :: rest) =
        .Error (.StaticError "syntax error")) ∧
    (∀ (key value : Value) (im : SetInsertionMode) (em : SetExpirationMode) (rm : Bool)
        (v : Value) (rest : List Value),
      v.is_bulk = false →
      Command.scan_set_flags key value im em rm (v :: rest) = .Set key value im em rm) := by
  refine ⟨fun flags => scan_set_flags_set_inv flags.length flags le_rfl, ?_, ?_, ?_, ?_⟩
  · intro key value im em rm s rest hmem him
    simp only [List.mem_cons, List.mem_singleton, List.not_mem_nil, or_false] at hmem
    cases im
    · exact absurd rfl him
    all_goals rcases hmem with rfl | rfl | rfl | rfl <;>
      (rw [Command.scan_set_flags.eq_def]; simp [SetInsertionMode.is_normal])
  · intro key value im em rm s rest hmem hem
    simp only [List.mem_cons, List.mem_singleton, List.not_mem_nil, or_false] at hmem
    cases em
    · exact absurd rfl hem
    all_goals rcases hmem with rfl | rfl | rfl | rfl | rfl | rfl | rfl | rfl | rfl <;>
      (rw [Command.scan_set_flags.eq_def]; simp [SetExpirationMode.is_normal])
  · intro key value im em rm s rest hmem
    simp only [List.mem_cons, List.not_mem_nil, or_false, not_or] at hmem
    obtain ⟨q1, q2, q3, q4, q5, q6, q7, q8, q9, q10, q11, q12, q13, q14⟩ := hmem
    rw [Command.scan_set_flags.eq_def]
    dsimp only
    simp [q1, q2, q3, q4, q5, q6, q7, q8, q9, q10, q11, q12, q13, q14]
  · intro key value im em rm v rest hv
    cases v <;>
      first
      | (simp [Value.is_bulk] at hv; done)
      | rw [Command.scan_set_flags.eq_def]

/-- C8 witness: the amended flag-scan theorem applied at concrete inputs — a
repeated insertion flag, an unrecognized bulk token, and a non-bulk flag
argument. -/
theorem c8_witness :
    Command.scan_set_flags Value.Nil Value.Nil .IfExists .Normal false
        [Value.BulkString "NX", Value.BulkString "QQQ"] =
      .Error (.StaticError "syntax error") ∧
    Command.scan_set_flags Value.Nil Value.Nil .Normal .Normal false
        [Value.BulkString "FOO"] =
      .Error (.StaticError "syntax error") ∧
    Command.scan_set_flags Value.Nil Value.Nil .IfNotExists .KeepTTL true
        [Value.SimpleString "NX"] =
      .Set Value.Nil Value.Nil .IfNotExists .KeepTTL true :=
  ⟨c8_flag_scan_amended.2.1 Value.Nil Value.Nil .IfExists .Normal false "NX"
      [Value.BulkString "QQQ"] (by decide) (by decide),
   c8_flag_scan_amended.2.2.2.1 Value.Nil Value.Nil .Normal .Normal false "FOO"
      [] (by decide),
   c8_flag_scan_amended.2.2.2.2 Value.Nil Value.Nil .IfNotExists .KeepTTL true
      (.SimpleString "NX") [] rfl⟩

/-- C4 counterexample: command-name matching is not case-insensitive — the
mixed-case spelling "Ping" is reported as an unknown command while "PING"
and "ping" both parse. -/
theorem c4_counterexample_mixed_case :
    Command.try_from (.Array [.BulkString "Ping"]) =
      .ok (.Error (.Error "unknown command 'Ping'")) ∧
    Command.try_from (.Array [.BulkString "PING"]) = .ok (.Ping none) ∧
    Command.try_from (.Array [.BulkString "ping"]) = .ok (.Ping none) :=
  ⟨rfl, rfl, rfl⟩

/-- C4 (amended): command names and the flags NX, XX, EX, PX, EXAT, PXAT are
matched in exactly their all-uppercase and all-lowercase spellings, which are
recognized identically; the KEEPTTL and GET flags are matched only in
uppercase; any other spelling is unrecognized (an unknown-command reply for
names, the syntax-error reply for flags). -/
theorem c4_casing_amended :
    (Command.try_from (.Array [.BulkString "PING"]) = .ok (.Ping none) ∧
      Command.try_from (.Array [.BulkString "ping"]) = .ok (.Ping none)) ∧
    (∀ m : Value, Command.try_from (.Array [.BulkString "PING", m]) = .ok (.Ping (some m)) ∧
      Command.try_from (.Array [.BulkString "ping", m]) = .ok (.Ping (some m))) ∧
    (∀ m : Value, Command.try_from (.Array [.BulkString "ECHO", m]) = .ok (.Echo m) ∧
      Command.try_from (.Array [.BulkString "echo", m]) = .ok (.Echo m)) ∧
    (∀ k : Value, Command.try_from (.Array [.BulkString "GET", k]) = .ok (.Get k) ∧
      Command.try_from (.Array [.BulkString "get", k]) = .ok (.Get k)) ∧
    (∀ (k v : Value) (flags : List Value),
      Command.try_from (.Array (.BulkString "SET" :: k :: v :: flags)) =
        .ok (Command.scan_set_flags k v .Normal .Normal false flags) ∧
      Command.try_from (.Array (.BulkString "set" :: k :: v :: flags)) =
        .ok (Command.scan_set_flags k v .Normal .Normal false flags)) ∧
    (∀ ks : List Value,
      Command.try_from (.Array (.BulkString "EXISTS" :: ks)) = .ok (.Exists ks) ∧
      Command.try_from (.Array (.BulkString "exists" :: ks)) = .ok (.Exists ks)) ∧
    (∀ (s : String) (args : List Value),
      s ∉ (["PING", "ping", "ECHO", "echo", "GET", "get", "SET", "set", "EXISTS",
        "exists"] : List String) →
      Command.try_from (.Array (.BulkString s :: args)) =
        .ok (.Error (.Error ("unknown command '" ++ s ++ "'")))) ∧
    (∀ (key value : Value) (im : SetInsertionMode) (em : SetExpirationMode) (rm : Bool)
        (rest : List Value),
      Command.scan_set_flags key value im em rm (.BulkString "nx" :: rest) =
        Command.scan_set_flags key value im em rm (.BulkString "NX" :: rest) ∧
      Command.scan_set_flags key value im em rm (.BulkString "xx" :: rest) =
        Command.scan_set_flags key value im em rm (.BulkString "XX" :: rest)) ∧
    (∀ (key value : Value) (im : SetInsertionMode) (em : SetExpirationMode) (rm : Bool)
        (rest : List Value),
      Command.scan_set_flags key value im em rm (.BulkString "ex" :: rest) =
        Command.scan_set_flags key value im em rm (.BulkString "EX" :: rest) ∧
      Command.scan_set_flags key value im em rm (.BulkString "px" :: rest) =
        Command.scan_set_flags key value im em rm (.BulkString "PX" :: rest) ∧
      Command.scan_set_flags key value im em rm (.BulkString "exat" :: rest) =
        Command.scan_set_flags key value im em rm (.BulkString "EXAT" :: rest) ∧
      Command.scan_set_flags key value im em rm (.BulkString "pxat" :: rest) =
        Command.scan_set_flags key value im em rm (.BulkString "PXAT" :: rest)) ∧
    (∀ (key value : Value) (im : SetInsertionMode) (em : SetExpirationMode) (rm : Bool)
        (rest : List Value),
      Command.scan_set_flags key value im em rm (.BulkString "keepttl" :: rest) =
        .Error (.StaticError "syntax error") ∧
      Command.scan_set_flags key value im em rm (.BulkString "get" :: rest) =
        .Error (.StaticError "syntax error")) := by
  refine ⟨⟨rfl, rfl⟩, fun m => ⟨rfl, rfl⟩, fun m => ⟨rfl, rfl⟩, fun k => ⟨rfl, rfl⟩,
    ?_, fun ks => ⟨rfl, rfl⟩, ?_, ?_, ?_, ?_⟩
  · intro k v flags
    constructor <;>
      · simp [Command.try_from, Value.into_array, Value.as_str, Command.parse_named,
          Command.parse_set_command]
        rw [if_neg (by omega)]
  · intro s args hmem
    simp only [List.mem_cons, List.not_mem_nil, or_false, not_or] at hmem
    obtain ⟨q1, q2, q3, q4, q5, q6, q7, q8, q9, q10⟩ := hmem
    simp [Command.try_from, Value.into_array, Value.as_str, Command.parse_named,
      q1, q2, q3, q4, q5, q6, q7, q8, q9, q10]
  · intro key value im em rm rest
    constructor <;>
      · conv_lhs => rw [Command.scan_set_flags.eq_def]
        conv_rhs => rw [Command.scan_set_flags.eq_def]
        by_cases him : im.is_normal = true <;> simp [him]
  · intro key value im em rm rest
    refine ⟨?_, ?_, ?_, ?_⟩ <;>
      · conv_lhs => rw [Command.scan_set_flags.eq_def]
        conv_rhs => rw [Command.scan_set_flags.eq_def]
        by_cases hem : em.is_normal = true
        · simp [hem]
          rcases rest with _ | ⟨r0, rest2⟩
          · simp
          · rcases r0 with _ | s0 | s0 | amount | vs0 | s0 | s0 | i0
            · simp
            · simp
            · simp
            · rcases hpi : Command.parse_integer amount with cmd | num
              · simp [hpi]
              · simp only [hpi]
                split_ifs with hnum
                · rfl
                · rfl
            · simp
            · simp
            · simp
            · simp
        · simp [hem]
  · intro key value im em rm rest
    constructor <;>
      · conv_lhs => rw [Command.scan_set_flags.eq_def]
        simp


/-- C4 witness: the amended casing theorem applied at concrete inputs — a
mixed-case name rejected as unknown, and the lowercase NX flag recognized
like the uppercase one. -/
theorem c4_witness :
    Command.try_from (.Array [.BulkString "Foo"]) =
      .ok (.Error (.Error "unknown command 'Foo'")) ∧
    Command.scan_set_flags Value.Nil Value.Nil .Normal .Normal false
        [Value.BulkString "nx"] =
      Command.scan_set_flags Value.Nil Value.Nil .Normal .Normal false
        [Value.BulkString "NX"] :=
  ⟨c4_casing_amended.2.2.2.2.2.2.1 "Foo" [] (by decide),
   (c4_casing_amended.2.2.2.2.2.2.2.1 Value.Nil Value.Nil .Normal .Normal false []).1⟩

end RustRedis
